import Mathlib

/-!
Shallow embedding of the hikari gateway-shard excerpt and of the gateway session
core its specification describes.  Entity code (scheduled events, member events)
is translated directly from the Python sources; the session core (command
validation, presence merging, heartbeat monitor, dispatch fan-out, frame codec)
is only declared abstractly in the excerpt, so those parts are modelled from the
specification text, as marked on each definition.
-/

namespace Hikari

/-- Tri-state for Python parameters that may be UNDEFINED or carry a value:
`hikari.undefined.UndefinedOr[T]` is `Undef T`, and `UndefinedNoneOr[T]`
is `Undef (Option T)`. -/
inductive Undef (α : Type) where
  | undefined : Undef α
  | value : α → Undef α
deriving DecidableEq, Repr

/-- Whether a tri-state parameter was explicitly passed (is not UNDEFINED). -/
def Undef.isSpecified {α : Type} : Undef α → Bool
  | Undef.undefined => false
  | Undef.value _ => true

/-- Merge one tri-state field: an explicitly specified argument replaces the
prior value, an unspecified one keeps it. -/
def Undef.updatedBy {α : Type} : Undef α → Undef α → Undef α
  | prior, Undef.undefined => prior
  | _, Undef.value a => Undef.value a

/-- Python exception values raised by the entity layer. -/
inductive PyErr where
  | typeError : String → PyErr
  | valueError : String → PyErr
deriving DecidableEq, Repr

/-- The CDN base URL constant from hikari.urls. -/
def CDN_URL : String := "https://cdn.discordapp.com"

/-- The file formats make_image_url documents as supported. -/
def allowedImageFormats : List String := ["PNG", "JPEG", "JPG", "WEBP"]

/-- The powers of two between 16 and 4096: the documented valid image sizes. -/
def allowedImageSizes : List Int := [16, 32, 64, 128, 256, 512, 1024, 2048, 4096]

/-- The compiled CDN file route: the arguments that
src/hikari/scheduled_events.py passes to
routes.SCHEDULED_EVENT_COVER.compile_to_file. -/
structure CoverURL where
  base_url : String
  scheduled_event_id : Nat
  image_hash : String
  size : Int
  file_format : String
  lossless : Bool
deriving DecidableEq, Repr

/-- Modelled from the spec: routes.SCHEDULED_EVENT_COVER.compile_to_file is
outside the excerpt; per the docstring of make_image_url it raises TypeError
for an invalid file_format and ValueError when size is not a power of two
between 16 and 4096, otherwise it compiles the URL record from its arguments. -/
def compile_to_file (base : String) (eid : Nat) (h : String) (size : Int)
    (ff : String) (lossless : Bool) : Except PyErr CoverURL :=
  if ¬ allowedImageFormats.contains ff then
    Except.error (PyErr.typeError "invalid file format")
  else if ¬ allowedImageSizes.contains size then
    Except.error (PyErr.valueError "size must be a power of two between 16 and 4096")
  else
    Except.ok ⟨base, eid, h, size, ff, lossless⟩

/-- The fields of hikari.scheduled_events.ScheduledEvent that make_image_url
reads (timestamps, status, creator and the like are omitted: make_image_url
never touches them). -/
structure ScheduledEvent where
  id : Nat
  guild_id : Nat
  name : String
  image_hash : Option String
deriving DecidableEq, Repr

/-- Python truthiness of the `ext` argument (str | None | UNDEFINED): truthy
exactly for a non-empty string. -/
def extTruthy : Undef (Option String) → Bool
  | Undef.value (some s) => s != ""
  | _ => false

deriving instance DecidableEq for Except

/-- Outcome of a make_image_url call: the deprecation warnings it emitted plus
either the raised exception or the returned value. -/
structure ImageUrlOutcome where
  warnings : List String
  result : Except PyErr (Option CoverURL)
deriving DecidableEq, Repr

/-- src/hikari/scheduled_events.py lines 164-225: return None when no cover
image hash is set; otherwise a truthy deprecated `ext` emits a deprecation
warning and replaces `file_format` with `ext.upper()`; then the CDN route is
compiled. -/
def ScheduledEvent.make_image_url (self : ScheduledEvent) (file_format : String)
    (size : Int) (lossless : Bool) (ext : Undef (Option String)) : ImageUrlOutcome :=
  match self.image_hash with
  | none => ⟨[], Except.ok none⟩
  | some h =>
    let warns := if extTruthy ext then ["ext is deprecated, use file_format"] else []
    let ff :=
      match ext with
      | Undef.value (some s) => if s == "" then file_format else s.toUpper
      | _ => file_format
    ⟨warns, Except.map some (compile_to_file CDN_URL self.id h size ff lossless)⟩

/-- Stand-in for hikari.traits.RESTAware: the opaque client application object
carried by every entity. -/
structure RESTAware where
  app_handle : Nat
deriving DecidableEq, Repr

/-- The fields of hikari.users.User that the member events read. -/
structure User where
  app : RESTAware
  id : Nat
  username : String
deriving DecidableEq, Repr

/-- The fields of hikari.guilds.Member that the member events read. -/
structure Member where
  guild_id : Nat
  user : User
  nickname : Option String
deriving DecidableEq, Repr

/-- Opaque reference to the shard that produced an event. -/
structure ShardRef where
  shard_id : Nat
deriving DecidableEq, Repr

/-- src/hikari/events/member_events.py: the closed set of concrete member
events, as a tagged variant.  MemberCreateEvent and MemberUpdateEvent store a
Member; MemberDeleteEvent stores guild_id and user directly. -/
inductive MemberEvent where
  | create : ShardRef → Member → MemberEvent
  | update : ShardRef → Option Member → Member → MemberEvent
  | delete : ShardRef → Nat → User → Option Member → MemberEvent
deriving DecidableEq, Repr

/-- The `user` accessor: MemberCreateEvent and MemberUpdateEvent derive it from
`member.user`; MemberDeleteEvent stores it as a field. -/
def MemberEvent.user : MemberEvent → User
  | MemberEvent.create _ m => m.user
  | MemberEvent.update _ _ m => m.user
  | MemberEvent.delete _ _ u _ => u

/-- The `guild_id` accessor: MemberCreateEvent and MemberUpdateEvent derive it
from `member.guild_id`; MemberDeleteEvent stores it as a field. -/
def MemberEvent.guild_id : MemberEvent → Nat
  | MemberEvent.create _ m => m.guild_id
  | MemberEvent.update _ _ m => m.guild_id
  | MemberEvent.delete _ g _ _ => g

/-- MemberEvent.user_id, defined on the abstract base over `user`. -/
def MemberEvent.user_id (e : MemberEvent) : Nat := e.user.id

/-- MemberEvent.app, defined on the abstract base over `user`. -/
def MemberEvent.app (e : MemberEvent) : RESTAware := e.user.app

/-- Presence activity payload (hikari.presences.Activity), kept opaque. -/
structure Activity where
  activity_name : String
  activity_type : Nat
deriving DecidableEq, Repr

/-- Presence status values (hikari.presences.Status). -/
inductive Status where
  | online : Status
  | idle : Status
  | dnd : Status
  | offline : Status
deriving DecidableEq, Repr

/-- The four tri-state presence fields, with the exact tri-state shapes of the
update_presence signature in src/hikari/api/shard.py: idle_since and activity
may additionally be None.  The same record is the durable PendingPresence of
the spec (each field independently unspecified or concrete). -/
structure PresenceArgs where
  idle_since : Undef (Option Nat)
  afk : Undef Bool
  activity : Undef (Option Activity)
  status : Undef Status
deriving DecidableEq, Repr

/-- Fieldwise merge of explicitly-specified presence arguments over the prior
pending presence. -/
def mergePresence (prior args : PresenceArgs) : PresenceArgs :=
  ⟨prior.idle_since.updatedBy args.idle_since,
   prior.afk.updatedBy args.afk,
   prior.activity.updatedBy args.activity,
   prior.status.updatedBy args.status⟩

/-- The arguments of request_guild_members in src/hikari/api/shard.py. -/
structure RequestGuildMembersArgs where
  guild : Nat
  include_presences : Undef Bool
  query : String
  limit : Int
  users : Undef (List Nat)
  nonce : Undef String
deriving DecidableEq, Repr

/-- Number of user ids passed to request_guild_members (0 when unspecified). -/
def usersCount (a : RequestGuildMembersArgs) : Nat :=
  match a.users with
  | Undef.undefined => 0
  | Undef.value us => us.length

/-- Whether the call asks for presences (include_presences passed as True). -/
def includePresences (a : RequestGuildMembersArgs) : Bool :=
  match a.include_presences with
  | Undef.value true => true
  | _ => false

/-- Intent bit flags relevant to request_guild_members (bitset per the spec's
ShardIdentity; the bit positions follow the Discord gateway intents). -/
def GUILD_MEMBERS_INTENT : Nat := 2

/-- The GUILD_PRESENCES intent bit. -/
def GUILD_PRESENCES_INTENT : Nat := 256

/-- Whether an intent bitset has a given intent flag set. -/
def hasIntent (intents flag : Nat) : Bool := intents &&& flag != 0

/-- The error taxonomy of spec section 7 that the command dispatcher can raise
synchronously: ComponentStateConflictError (not connected), ValueError
(validation), MissingIntentError (carrying the absent intent's flag). -/
inductive GatewayError where
  | notConnected : GatewayError
  | validationError : String → GatewayError
  | missingIntent : Nat → GatewayError
deriving DecidableEq, Repr

/-- Message of the users/query-limit mutual-exclusion validation error. -/
def mutualExclusionMsg : String := "cannot specify users with query and limit"

/-- Message of the limit-range validation error. -/
def limitRangeMsg : String := "limit must be between 0 and 100, both inclusive"

/-- Message of the users-length validation error. -/
def usersCountMsg : String := "count of users must be 100 or less"

/-- Outbound command frames of spec section 6 (OutboundCommand variants plus
the handshake frames). -/
inductive OutboundFrame where
  | identify : Nat → Nat → Nat → PresenceArgs → OutboundFrame
  | resume : String → Option Nat → OutboundFrame
  | heartbeat : Option Nat → OutboundFrame
  | updatePresence : PresenceArgs → OutboundFrame
  | updateVoiceState : Nat → Option Nat → Undef Bool → Undef Bool → OutboundFrame
  | requestMembers : RequestGuildMembersArgs → OutboundFrame
deriving DecidableEq, Repr

/-- Modelled from the spec: request_guild_members has no implementation in the
excerpt (src/hikari/api/shard.py only declares it); spec section 4.4 gives its
checks: users and (query or non-zero limit) are mutually exclusive; limit must
be within 0 to 100; users must not exceed 100 entries; requesting presences
requires GUILD_MEMBERS and additionally GUILD_PRESENCES; requesting the full
member list (empty query, zero limit) requires GUILD_MEMBERS; the frame is
emitted only if Connected, else the call fails with not-connected. -/
def request_guild_members (intents : Nat) (connected : Bool)
    (a : RequestGuildMembersArgs) : Except GatewayError OutboundFrame :=
  if a.users.isSpecified ∧ (a.query ≠ "" ∨ a.limit ≠ 0) then
    Except.error (GatewayError.validationError mutualExclusionMsg)
  else if a.limit < 0 ∨ 100 < a.limit then
    Except.error (GatewayError.validationError limitRangeMsg)
  else if 100 < usersCount a then
    Except.error (GatewayError.validationError usersCountMsg)
  else if includePresences a ∧ ¬ hasIntent intents GUILD_MEMBERS_INTENT then
    Except.error (GatewayError.missingIntent GUILD_MEMBERS_INTENT)
  else if includePresences a ∧ ¬ hasIntent intents GUILD_PRESENCES_INTENT then
    Except.error (GatewayError.missingIntent GUILD_PRESENCES_INTENT)
  else if a.query = "" ∧ a.limit = 0 ∧ ¬ hasIntent intents GUILD_MEMBERS_INTENT then
    Except.error (GatewayError.missingIntent GUILD_MEMBERS_INTENT)
  else if ¬ connected then
    Except.error GatewayError.notConnected
  else
    Except.ok (OutboundFrame.requestMembers a)

/-- Whether a dispatcher outcome is a ValueError-class validation failure. -/
def isValidationFailure : Except GatewayError OutboundFrame → Bool
  | Except.error (GatewayError.validationError _) => true
  | _ => false

/-- The connection states of the session state machine (spec section 3). -/
inductive ConnState where
  | disconnected : ConnState
  | connecting : ConnState
  | identifying : ConnState
  | resuming : ConnState
  | connected : ConnState
  | closing : ConnState
deriving DecidableEq, Repr

/-- ShardIdentity of spec section 3: immutable for the shard's lifetime. -/
structure ShardIdentity where
  shard_id : Nat
  shard_count : Nat
  intents : Nat
deriving DecidableEq, Repr

/-- SessionHandle of spec section 3. -/
structure SessionHandle where
  session_id : Option String
  last_sequence : Option Nat
deriving DecidableEq, Repr

/-- The per-shard state the command dispatcher and state machine act on:
connection state, durable pending presence, session handle, and the frames
sent so far (oldest first). -/
structure ShardState where
  identity : ShardIdentity
  conn : ConnState
  pending : PresenceArgs
  session : SessionHandle
  sent : List OutboundFrame
deriving DecidableEq, Repr

/-- Modelled from the spec: update_presence has no implementation in the
excerpt; spec section 4.4 says it merges only the explicitly-specified fields
into PendingPresence, then, if Connected, immediately emits an UpdatePresence
frame with the full merged presence; if not Connected, the merge is retained
and no frame is sent; it never fails with not-connected (section 4.6: silently
deferred). -/
def update_presence (s : ShardState) (args : PresenceArgs) :
    Except GatewayError ShardState :=
  let merged := mergePresence s.pending args
  if s.conn = ConnState.connected then
    Except.ok { s with pending := merged,
                       sent := s.sent ++ [OutboundFrame.updatePresence merged] }
  else
    Except.ok { s with pending := merged }

/-- Modelled from the spec: a successful identify handshake is absent from the
excerpt; per spec sections 3, 4.3 and 6 it sends an Identify frame carrying the
intents, shard id/count and the pending presence, and reaches Connected. -/
def identifySucceed (s : ShardState) : ShardState :=
  { s with
      conn := ConnState.connected,
      sent := s.sent ++ [OutboundFrame.identify s.identity.intents
        s.identity.shard_id s.identity.shard_count s.pending] }

/-- A float that may be NaN: the value of the heartbeat_latency property.
Times are rationals in the model. -/
inductive FloatNaN where
  | nan : FloatNaN
  | val : ℚ → FloatNaN
deriving DecidableEq, Repr

/-- Heartbeat monitor state of spec section 4.2 (the fields the latency claim
touches: the timestamp of the beat awaiting its ack, and the most recent
measured latency). -/
structure HeartbeatState where
  interval : ℚ
  beat_sent_at : Option ℚ
  latency : FloatNaN
deriving DecidableEq, Repr

/-- Timestamped heartbeat monitor events: sending a beat, receiving an ack. -/
inductive HeartbeatEvent where
  | sendBeat : ℚ → HeartbeatEvent
  | recvAck : ℚ → HeartbeatEvent
deriving DecidableEq, Repr

/-- Modelled from the spec: the heartbeat monitor is absent from the excerpt;
per spec section 4.2 latency is recorded as the time between sending a beat
and receiving its ack, kept as a rolling most-recent value. -/
def hbStep (s : HeartbeatState) (e : HeartbeatEvent) : HeartbeatState :=
  match e with
  | HeartbeatEvent.sendBeat t => { s with beat_sent_at := some t }
  | HeartbeatEvent.recvAck t =>
    match s.beat_sent_at with
    | some b => { s with latency := FloatNaN.val (t - b), beat_sent_at := none }
    | none => s

/-- The heartbeat monitor's initial state: nothing measured yet. -/
def hbInit (interval : ℚ) : HeartbeatState := ⟨interval, none, FloatNaN.nan⟩

/-- Run the heartbeat monitor from start over a list of events. -/
def hbRun (interval : ℚ) (evs : List HeartbeatEvent) : HeartbeatState :=
  evs.foldl hbStep (hbInit interval)

/-- The heartbeat_latency property of src/hikari/api/shard.py: the most recent
measured latency, NaN when not yet available. -/
def heartbeat_latency (s : HeartbeatState) : FloatNaN := s.latency

/-- Independent characterisation used to state the latency claim: the list of
beat-to-ack measurements an event list produces, in order, given the pending
beat carried in from the left. -/
def measuredLatencies : Option ℚ → List HeartbeatEvent → List ℚ
  | _, [] => []
  | _, HeartbeatEvent.sendBeat t :: rest => measuredLatencies (some t) rest
  | some b, HeartbeatEvent.recvAck t :: rest => (t - b) :: measuredLatencies none rest
  | none, HeartbeatEvent.recvAck _ :: rest => measuredLatencies none rest

/-- Last element of a list of measurements, with a default for the empty list. -/
def lastLatencyD : List ℚ → FloatNaN → FloatNaN
  | [], d => d
  | q :: rest, _ => lastLatencyD rest (FloatNaN.val q)

/-- An inbound dispatch frame (sequence, event name, opaque payload). -/
structure DispatchFrame where
  sequence : Nat
  event_name : String
  payload : List Nat
deriving DecidableEq, Repr

/-- InboundEvent of spec section 3: what the fan-out hands to the sink. -/
structure InboundEvent where
  sequence : Nat
  kind : String
  shard_id : Nat
deriving DecidableEq, Repr

/-- State the event fan-out acts on: the session handle and the events
delivered to the downstream sink so far, in delivery order. -/
structure FanoutState where
  handle : SessionHandle
  sink : List InboundEvent
deriving DecidableEq, Repr

/-- Modelled from the spec: the dispatch path is absent from the excerpt; per
spec sections 3 and 4.5, processing an inbound dispatch frame while Connected
updates SessionHandle.last_sequence to the frame's sequence and then delivers
the decoded event to the single downstream sink in arrival order. -/
def processDispatch (shard_id : Nat) (s : FanoutState) (f : DispatchFrame) :
    FanoutState :=
  { handle := { s.handle with last_sequence := some f.sequence },
    sink := s.sink ++ [⟨f.sequence, f.event_name, shard_id⟩] }

/-- Process a list of inbound dispatch frames in order. -/
def processDispatches (shard_id : Nat) (s : FanoutState)
    (fs : List DispatchFrame) : FanoutState :=
  fs.foldl (processDispatch shard_id) s

/-- The eleven gateway op codes of spec section 4.1. -/
inductive Op where
  | dispatch : Op
  | heartbeat : Op
  | identify : Op
  | statusUpdate : Op
  | voiceStateUpdate : Op
  | resume : Op
  | reconnect : Op
  | requestGuildMembers : Op
  | invalidSession : Op
  | hello : Op
  | heartbeatAck : Op
deriving DecidableEq, Repr

/-- Numeric code of each op (the Discord gateway op numbers). -/
def Op.code : Op → Nat
  | Op.dispatch => 0
  | Op.heartbeat => 1
  | Op.identify => 2
  | Op.statusUpdate => 3
  | Op.voiceStateUpdate => 4
  | Op.resume => 6
  | Op.reconnect => 7
  | Op.requestGuildMembers => 8
  | Op.invalidSession => 9
  | Op.hello => 10
  | Op.heartbeatAck => 11

/-- Parse an op from its numeric code. -/
def Op.ofCode : Nat → Option Op
  | 0 => some Op.dispatch
  | 1 => some Op.heartbeat
  | 2 => some Op.identify
  | 3 => some Op.statusUpdate
  | 4 => some Op.voiceStateUpdate
  | 6 => some Op.resume
  | 7 => some Op.reconnect
  | 8 => some Op.requestGuildMembers
  | 9 => some Op.invalidSession
  | 10 => some Op.hello
  | 11 => some Op.heartbeatAck
  | _ => none

/-- A decoded wire frame of spec section 4.1: op, optional sequence, optional
event name, opaque payload bytes. -/
structure Frame where
  op : Op
  sequence : Option Nat
  event_name : Option String
  data : List Nat
deriving DecidableEq, Repr

/-- Length-prefixed string: the character codes preceded by the count. -/
def encodeString (s : String) : List Nat :=
  s.length :: s.data.map Char.toNat

/-- Parse a length-prefixed string, returning it with the remaining stream. -/
def parseStringBody : List Nat → Option (String × List Nat)
  | [] => none
  | len :: rest =>
    if len ≤ rest.length then
      some (String.mk ((rest.take len).map Char.ofNat), rest.drop len)
    else none

/-- Modelled from the spec: the frame codec is absent from the excerpt; this is
the dense positional binary payload format of spec section 4.1: op code, then
a presence-flagged sequence, a presence-flagged event name, and the
length-prefixed payload. -/
def encodeBinary (f : Frame) : List Nat :=
  f.op.code ::
    ((match f.sequence with
      | none => [0]
      | some n => [1, n]) ++
     (match f.event_name with
      | none => [0]
      | some s => 1 :: encodeString s) ++
     (f.data.length :: f.data))

/-- Parse the presence-flagged optional sequence number. -/
def parseOptNat : List Nat → Option (Option Nat × List Nat)
  | [] => none
  | fl :: rest =>
    if fl = 0 then some (none, rest)
    else if fl = 1 then
      match rest with
      | [] => none
      | n :: r => some (some n, r)
    else none

/-- Parse the presence-flagged optional event name. -/
def parseOptString : List Nat → Option (Option String × List Nat)
  | [] => none
  | fl :: rest =>
    if fl = 0 then some (none, rest)
    else if fl = 1 then (parseStringBody rest).map (fun p => (some p.1, p.2))
    else none

/-- Parse the length-prefixed payload bytes. -/
def parseBytes : List Nat → Option (List Nat × List Nat)
  | [] => none
  | len :: rest =>
    if len ≤ rest.length then some (rest.take len, rest.drop len) else none

/-- Decode a binary-format frame; trailing bytes are rejected. -/
def decodeBinary (ts : List Nat) : Option Frame :=
  match ts with
  | [] => none
  | c :: rest =>
    match Op.ofCode c with
    | none => none
    | some op =>
      match parseOptNat rest with
      | none => none
      | some (seq, r1) =>
        match parseOptString r1 with
        | none => none
        | some (nm, r2) =>
          match parseBytes r2 with
          | none => none
          | some (dat, r3) =>
            if r3 = [] then some ⟨op, seq, nm, dat⟩ else none

/-- Modelled from the spec: the self-describing text payload format of spec
section 4.1: tagged fields (100 the op, 101 the sequence, 102 the event name,
103 the payload); absent optional fields are simply omitted. -/
def encodeText (f : Frame) : List Nat :=
  100 :: f.op.code ::
    ((match f.sequence with
      | none => []
      | some n => [101, n]) ++
     (match f.event_name with
      | none => []
      | some s => 102 :: encodeString s) ++
     (103 :: f.data.length :: f.data))

/-- Parse the optional sequence field tag of the text format. -/
def parseSeqTag : List Nat → Option Nat × List Nat
  | [] => ((none : Option Nat), ([] : List Nat))
  | t :: rest =>
    if t = 101 then
      match rest with
      | [] => (none, t :: rest)
      | n :: r => (some n, r)
    else (none, t :: rest)

/-- Parse the optional event-name field tag of the text format. -/
def parseNameTag : List Nat → Option (Option String × List Nat)
  | [] => some (none, [])
  | t :: rest =>
    if t = 102 then (parseStringBody rest).map (fun p => (some p.1, p.2))
    else some (none, t :: rest)

/-- Parse the payload field tag of the text format. -/
def parseDataTag : List Nat → Option (List Nat × List Nat)
  | [] => none
  | t :: rest => if t = 103 then parseBytes rest else none

/-- Decode a text-format frame; trailing bytes are rejected. -/
def decodeText (ts : List Nat) : Option Frame :=
  match ts with
  | tag :: c :: rest =>
    if tag = 100 then
      match Op.ofCode c with
      | none => none
      | some op =>
        match parseSeqTag rest with
        | (seq, r1) =>
          match parseNameTag r1 with
          | none => none
          | some (nm, r2) =>
            match parseDataTag r2 with
            | none => none
            | some (dat, r3) =>
              if r3 = [] then some ⟨op, seq, nm, dat⟩ else none
    else none
  | _ => none

/-- Concrete shard state used by the deferred-presence witness. -/
def exampleShardState : ShardState :=
  ⟨⟨0, 1, 0⟩, ConnState.disconnected,
   ⟨Undef.undefined, Undef.value false, Undef.undefined, Undef.value Status.online⟩,
   ⟨none, none⟩, []⟩

/-- Concrete presence arguments (only status specified) for the witness. -/
def examplePresenceArgs : PresenceArgs :=
  ⟨Undef.undefined, Undef.undefined, Undef.undefined, Undef.value Status.idle⟩

/-- Concrete dispatch frames with increasing sequences for the witness. -/
def exampleFrames : List DispatchFrame :=
  [⟨5, "MESSAGE_CREATE", [1]⟩, ⟨7, "MESSAGE_DELETE", [2]⟩]

/-- Concrete member for the accessor witness. -/
def exampleMember : Member := ⟨42, ⟨⟨1⟩, 7, "ann"⟩, none⟩

theorem Undef.updatedBy_undefined {α : Type} (p : Undef α) :
    p.updatedBy Undef.undefined = p := by
  cases p <;> rfl

theorem compile_to_file_fields (base : String) (eid : Nat) (hsh : String)
    (size : Int) (ff : String) (lossless : Bool) (u : CoverURL)
    (h : compile_to_file base eid hsh size ff lossless = Except.ok u) :
    u.file_format = ff ∧ u.image_hash = hsh := by
  unfold compile_to_file at h
  split at h
  · simp at h
  · split at h
    · simp at h
    · rw [Except.ok.injEq] at h
      subst h
      exact ⟨rfl, rfl⟩

theorem except_map_some_ok {e : Except PyErr CoverURL} {u : CoverURL}
    (h : Except.map some e = Except.ok (some u)) : e = Except.ok u := by
  cases e with
  | error err => simp [Except.map] at h
  | ok v =>
    simp [Except.map] at h
    rw [h]

/-- Claim C2: for every ScheduledEvent with a set image hash, make_image_url
called with a truthy deprecated `ext` argument and a `file_format` argument
computes the same result as if `ext.upper()` had been passed as file_format:
the deprecated parameter silently overwrites the newer one, and any URL it
returns carries `ext.upper()` as its format. -/
theorem make_image_url_ext_overrides (ev : ScheduledEvent) (hsh : String)
    (ff : String) (size : Int) (lossless : Bool) (s : String)
    (hh : ev.image_hash = some hsh) (hs : s ≠ "") :
    (ev.make_image_url ff size lossless (Undef.value (some s))).result
      = (ev.make_image_url s.toUpper size lossless Undef.undefined).result
    ∧ ∀ u : CoverURL,
        (ev.make_image_url ff size lossless (Undef.value (some s))).result
          = Except.ok (some u) → u.file_format = s.toUpper := by
  have hsb : (s == "") = false := beq_eq_false_iff_ne.mpr hs
  constructor
  · simp [ScheduledEvent.make_image_url, hh, extTruthy, hsb]
  · intro u hu
    simp [ScheduledEvent.make_image_url, hh, extTruthy, hsb] at hu
    exact (compile_to_file_fields _ _ _ _ _ _ _ (except_map_some_ok hu)).1

/-- Witness for C2 at a concrete event: a truthy ext of "jpeg" makes the call
behave as if file_format had been "jpeg".upper(). -/
theorem make_image_url_ext_overrides_witness :
    (ScheduledEvent.make_image_url ⟨1, 2, "party", some "abc"⟩ "PNG" 4096 true
        (Undef.value (some "jpeg"))).result
      = (ScheduledEvent.make_image_url ⟨1, 2, "party", some "abc"⟩ "jpeg".toUpper
          4096 true Undef.undefined).result :=
  (make_image_url_ext_overrides ⟨1, 2, "party", some "abc"⟩ "abc" "PNG" 4096 true
    "jpeg" rfl (by decide)).1

/-- Claim C9: with no image hash set, make_image_url returns None whatever the
other arguments are, raising nothing and emitting no deprecation warning; and
any URL it does return carries the event's image hash, so a non-None URL only
arises when the hash is set. -/
theorem make_image_url_requires_hash (ev : ScheduledEvent) (ff : String)
    (size : Int) (lossless : Bool) (ext : Undef (Option String)) :
    (ev.image_hash = none →
      ev.make_image_url ff size lossless ext
        = ⟨[], Except.ok none⟩)
    ∧ (∀ u : CoverURL,
        (ev.make_image_url ff size lossless ext).result = Except.ok (some u) →
          ev.image_hash = some u.image_hash) := by
  constructor
  · intro h
    simp [ScheduledEvent.make_image_url, h]
  · intro u hu
    cases hh : ev.image_hash with
    | none => simp [ScheduledEvent.make_image_url, hh] at hu
    | some hsh =>
      simp only [ScheduledEvent.make_image_url, hh] at hu
      rw [(compile_to_file_fields _ _ _ _ _ _ _ (except_map_some_ok hu)).2]

/-- Witness for C9 at a concrete event without a cover image: the call returns
None with no warning and no exception. -/
theorem make_image_url_requires_hash_witness :
    ScheduledEvent.make_image_url ⟨1, 2, "party", none⟩ "WEBP" 33 false
        (Undef.value (some "jpeg"))
      = ⟨[], Except.ok none⟩ :=
  (make_image_url_requires_hash ⟨1, 2, "party", none⟩ "WEBP" 33 false
    (Undef.value (some "jpeg"))).1 rfl

/-- Claim C10: the derived member-event accessors are consistent with the
underlying user object: user_id is user.id and app is user.app for every
member event, and for MemberCreateEvent and MemberUpdateEvent the guild_id and
user accessors read member.guild_id and member.user. -/
theorem member_event_accessors (e : MemberEvent) :
    (e.user_id = e.user.id ∧ e.app = e.user.app)
    ∧ (∀ sh m, e = MemberEvent.create sh m →
        e.guild_id = m.guild_id ∧ e.user = m.user)
    ∧ (∀ sh om m, e = MemberEvent.update sh om m →
        e.guild_id = m.guild_id ∧ e.user = m.user) := by
  refine ⟨⟨rfl, rfl⟩, ?_, ?_⟩
  · intro sh m he
    subst he
    exact ⟨rfl, rfl⟩
  · intro sh om m he
    subst he
    exact ⟨rfl, rfl⟩

/-- Witness for C10 at a concrete MemberCreateEvent. -/
theorem member_event_accessors_witness :
    (MemberEvent.create ⟨0⟩ exampleMember).guild_id = exampleMember.guild_id
    ∧ (MemberEvent.create ⟨0⟩ exampleMember).user = exampleMember.user :=
  (member_event_accessors (MemberEvent.create ⟨0⟩ exampleMember)).2.1
    ⟨0⟩ exampleMember rfl

/-- Claim C1: requesting the full member list (empty query, zero limit) while
Connected with GUILD_PRESENCES set but GUILD_MEMBERS absent fails with a
missing-intent error naming GUILD_MEMBERS as the absent intent. -/
theorem request_all_members_missing_intent (guild : Nat) (intents : Nat)
    (_hp : hasIntent intents GUILD_PRESENCES_INTENT = true)
    (hm : hasIntent intents GUILD_MEMBERS_INTENT = false) :
    request_guild_members intents true
      ⟨guild, Undef.undefined, "", 0, Undef.undefined, Undef.undefined⟩
      = Except.error (GatewayError.missingIntent GUILD_MEMBERS_INTENT) := by
  simp [request_guild_members, Undef.isSpecified, usersCount, includePresences, hm]

/-- Witness for C1: intents bitset 256 has GUILD_PRESENCES but not
GUILD_MEMBERS; the full-member-list request fails naming GUILD_MEMBERS. -/
theorem request_all_members_missing_intent_witness :
    request_guild_members 256 true
      ⟨123, Undef.undefined, "", 0, Undef.undefined, Undef.undefined⟩
      = Except.error (GatewayError.missingIntent GUILD_MEMBERS_INTENT) :=
  request_all_members_missing_intent 123 256 (by decide) (by decide)

/-- Claim C4: passing users together with a non-empty query or non-zero limit
fails with the mutual-exclusion ValueError, and no frame is ever emitted. -/
theorem request_members_mutual_exclusion (intents : Nat) (connected : Bool)
    (a : RequestGuildMembersArgs) (us : List Nat)
    (hu : a.users = Undef.value us) (hql : a.query ≠ "" ∨ a.limit ≠ 0) :
    request_guild_members intents connected a
      = Except.error (GatewayError.validationError mutualExclusionMsg)
    ∧ ∀ fr : OutboundFrame,
        request_guild_members intents connected a ≠ Except.ok fr := by
  have hcond : (a.users.isSpecified : Prop) ∧ (a.query ≠ "" ∨ a.limit ≠ 0) := by
    rw [hu]
    exact ⟨rfl, hql⟩
  have h1 : request_guild_members intents connected a
      = Except.error (GatewayError.validationError mutualExclusionMsg) := by
    unfold request_guild_members
    rw [if_pos hcond]
  refine ⟨h1, fun fr hcontra => ?_⟩
  rw [h1] at hcontra
  exact Except.noConfusion hcontra

/-- Witness for C4: the spec's own example, users with a non-empty query. -/
theorem request_members_mutual_exclusion_witness :
    request_guild_members 0 true
      ⟨123, Undef.undefined, "abc", 0, Undef.value [1, 2, 3], Undef.undefined⟩
      = Except.error (GatewayError.validationError mutualExclusionMsg) :=
  (request_members_mutual_exclusion 0 true
    ⟨123, Undef.undefined, "abc", 0, Undef.value [1, 2, 3], Undef.undefined⟩
    [1, 2, 3] rfl (Or.inl (by decide))).1

/-- Claim C5: a limit outside 0..100 or more than 100 users fails with a
ValueError-class validation error; a call with limit within 0..100 and at
most 100 users passes the two bound checks (it never produces either bounds
error). -/
theorem request_members_bounds (intents : Nat) (connected : Bool)
    (a : RequestGuildMembersArgs) :
    ((a.limit < 0 ∨ 100 < a.limit ∨ 100 < usersCount a) →
      isValidationFailure (request_guild_members intents connected a) = true)
    ∧ ((0 ≤ a.limit ∧ a.limit ≤ 100 ∧ usersCount a ≤ 100) →
      request_guild_members intents connected a
          ≠ Except.error (GatewayError.validationError limitRangeMsg)
      ∧ request_guild_members intents connected a
          ≠ Except.error (GatewayError.validationError usersCountMsg)) := by
  constructor
  · intro hbad
    unfold request_guild_members
    split_ifs with h1 h2 h3
    · rfl
    · rfl
    · rfl
    all_goals
      rcases hbad with hb | hb | hb
      · exact absurd (Or.inl hb) h2
      · exact absurd (Or.inr hb) h2
      · exact absurd hb h3
  · intro hgood
    obtain ⟨hg1, hg2, hg3⟩ := hgood
    unfold request_guild_members
    split_ifs with h1 h2 h3
    · exact ⟨by decide, by decide⟩
    · exact absurd h2 (by omega)
    · exact absurd h3 (by omega)
    all_goals exact ⟨by simp, by simp⟩

/-- Witness for C5: limit 200 trips the bounds ValueError; limit 0 with no
users produces neither bounds error. -/
theorem request_members_bounds_witness :
    isValidationFailure (request_guild_members 0 true
      ⟨123, Undef.undefined, "", 200, Undef.undefined, Undef.undefined⟩) = true
    ∧ (request_guild_members 0 true
        ⟨123, Undef.undefined, "", 0, Undef.undefined, Undef.undefined⟩
          ≠ Except.error (GatewayError.validationError limitRangeMsg)
      ∧ request_guild_members 0 true
        ⟨123, Undef.undefined, "", 0, Undef.undefined, Undef.undefined⟩
          ≠ Except.error (GatewayError.validationError usersCountMsg)) :=
  ⟨(request_members_bounds 0 true
      ⟨123, Undef.undefined, "", 200, Undef.undefined, Undef.undefined⟩).1
      (by decide),
   (request_members_bounds 0 true
      ⟨123, Undef.undefined, "", 0, Undef.undefined, Undef.undefined⟩).2
      (by decide)⟩

/-- Claim C3: update_presence while not Connected does not raise, merges the
explicitly-specified fields into the retained pending presence (unspecified
fields keep their prior values), sends no frame, and the next successful
identify carries the full merged presence. -/
theorem update_presence_deferred (s : ShardState) (args : PresenceArgs)
    (hc : s.conn ≠ ConnState.connected) :
    update_presence s args
        = Except.ok { s with pending := mergePresence s.pending args }
    ∧ ({ s with pending := mergePresence s.pending args } : ShardState).sent
        = s.sent
    ∧ (args.idle_since = Undef.undefined →
        (mergePresence s.pending args).idle_since = s.pending.idle_since)
    ∧ (args.afk = Undef.undefined →
        (mergePresence s.pending args).afk = s.pending.afk)
    ∧ (args.activity = Undef.undefined →
        (mergePresence s.pending args).activity = s.pending.activity)
    ∧ (args.status = Undef.undefined →
        (mergePresence s.pending args).status = s.pending.status)
    ∧ (identifySucceed { s with pending := mergePresence s.pending args }).sent
        = s.sent ++ [OutboundFrame.identify s.identity.intents
            s.identity.shard_id s.identity.shard_count
            (mergePresence s.pending args)] := by
  refine ⟨?_, rfl, ?_, ?_, ?_, ?_, rfl⟩
  · simp [update_presence, hc]
  · intro h
    simp [mergePresence, h, Undef.updatedBy_undefined]
  · intro h
    simp [mergePresence, h, Undef.updatedBy_undefined]
  · intro h
    simp [mergePresence, h, Undef.updatedBy_undefined]
  · intro h
    simp [mergePresence, h, Undef.updatedBy_undefined]

/-- Witness for C3: updating only the status to idle while Disconnected is
accepted, retained, and carried (merged over the prior afk and status) by the
next identify. -/
theorem update_presence_deferred_witness :
    update_presence exampleShardState examplePresenceArgs
      = Except.ok { exampleShardState with
          pending := mergePresence exampleShardState.pending examplePresenceArgs } :=
  (update_presence_deferred exampleShardState examplePresenceArgs (by decide)).1

theorem hb_run_lastD (evs : List HeartbeatEvent) : ∀ s : HeartbeatState,
    (evs.foldl hbStep s).latency
      = lastLatencyD (measuredLatencies s.beat_sent_at evs) s.latency := by
  induction evs with
  | nil =>
    intro s
    simp [measuredLatencies, lastLatencyD]
  | cons e rest ih =>
    intro s
    cases e with
    | sendBeat t =>
      rw [List.foldl_cons]
      have h := ih { s with beat_sent_at := some t }
      simp [hbStep] at h ⊢
      rw [h]
      simp [measuredLatencies]
    | recvAck t =>
      cases hb : s.beat_sent_at with
      | some b =>
        rw [List.foldl_cons]
        have h := ih { s with latency := FloatNaN.val (t - b), beat_sent_at := none }
        simp [hbStep, hb] at h ⊢
        rw [h]
        simp [measuredLatencies, hb, lastLatencyD]
      | none =>
        rw [List.foldl_cons]
        have h := ih s
        simp [hbStep, hb] at h ⊢
        rw [h]
        simp [measuredLatencies]

theorem lastLatencyD_val_ne_nan (l : List ℚ) : ∀ q : ℚ,
    lastLatencyD l (FloatNaN.val q) ≠ FloatNaN.nan := by
  induction l with
  | nil =>
    intro q
    simp [lastLatencyD]
  | cons a rest ih =>
    intro q
    simp only [lastLatencyD]
    exact ih a

/-- Claim C6: heartbeat_latency is the most recent measured beat-to-ack
latency — the last entry of the list of measurements the event history
produced — and it is NaN exactly when no latency has ever been measured, in
particular right after start. -/
theorem heartbeat_latency_spec (interval : ℚ) (evs : List HeartbeatEvent) :
    heartbeat_latency (hbRun interval evs)
        = lastLatencyD (measuredLatencies none evs) FloatNaN.nan
    ∧ heartbeat_latency (hbInit interval) = FloatNaN.nan
    ∧ (heartbeat_latency (hbRun interval evs) = FloatNaN.nan
        ↔ measuredLatencies none evs = []) := by
  have hm : heartbeat_latency (hbRun interval evs)
      = lastLatencyD (measuredLatencies none evs) FloatNaN.nan := by
    unfold heartbeat_latency hbRun
    rw [hb_run_lastD evs (hbInit interval)]
    rfl
  refine ⟨hm, rfl, ?_⟩
  rw [hm]
  constructor
  · intro hnan
    cases hml : measuredLatencies none evs with
    | nil => rfl
    | cons q rest =>
      rw [hml] at hnan
      simp only [lastLatencyD] at hnan
      exact absurd hnan (lastLatencyD_val_ne_nan rest q)
  · intro hml
    rw [hml]
    rfl

theorem processDispatches_sink (sid : Nat) (fs : List DispatchFrame) :
    ∀ s : FanoutState,
    (processDispatches sid s fs).sink
      = s.sink ++ fs.map (fun f => InboundEvent.mk f.sequence f.event_name sid) := by
  induction fs with
  | nil =>
    intro s
    simp [processDispatches]
  | cons f rest ih =>
    intro s
    have hstep := ih (processDispatch sid s f)
    unfold processDispatches at hstep ⊢
    rw [List.foldl_cons, hstep]
    simp [processDispatch]

theorem processDispatches_take_last (sid : Nat) (s : FanoutState)
    (fs : List DispatchFrame) (i : Fin fs.length) :
    (processDispatches sid s (fs.take (i.1 + 1))).handle.last_sequence
      = some (fs.get i).sequence := by
  have ht : fs.take (i.1 + 1) = fs.take i.1 ++ [fs.get i] := by
    rw [List.take_succ]
    congr 1
    rw [List.getElem?_eq_getElem i.2]
    rfl
  rw [ht]
  unfold processDispatches
  rw [List.foldl_append]
  rfl

theorem frames_mono (fs : List DispatchFrame)
    (hmono : List.Chain' (· < ·) (fs.map DispatchFrame.sequence))
    (i j : Fin fs.length) (hij : i.1 ≤ j.1) :
    (fs.get i).sequence ≤ (fs.get j).sequence := by
  rcases Nat.lt_or_ge i.1 j.1 with hlt | hge
  · have hp := List.chain'_iff_pairwise.mp hmono
    rw [List.pairwise_map] at hp
    exact le_of_lt (List.pairwise_iff_get.mp hp i j hlt)
  · have : i = j := Fin.ext (Nat.le_antisymm hij hge)
    rw [this]

/-- Claim C7: starting from a fresh Connected state, after fully processing
the first N inbound dispatch frames the session handle's last_sequence equals
frame N's sequence; the sink receives the events in arrival order with
strictly increasing sequences; and the recorded sequences never regress while
frames keep arriving (inbound dispatch sequences are monotonic per the spec's
glossary, taken as the hypothesis). -/
theorem dispatch_ordering (sid : Nat) (sid0 : Option String)
    (fs : List DispatchFrame)
    (hmono : List.Chain' (· < ·) (fs.map DispatchFrame.sequence)) :
    (∀ i : Fin fs.length,
      (processDispatches sid ⟨⟨sid0, none⟩, []⟩ (fs.take (i.1 + 1))).handle.last_sequence
        = some (fs.get i).sequence)
    ∧ (processDispatches sid ⟨⟨sid0, none⟩, []⟩ fs).sink.map InboundEvent.sequence
        = fs.map DispatchFrame.sequence
    ∧ List.Chain' (· < ·)
        ((processDispatches sid ⟨⟨sid0, none⟩, []⟩ fs).sink.map InboundEvent.sequence)
    ∧ (∀ i j : Fin fs.length, i.1 ≤ j.1 →
        (fs.get i).sequence ≤ (fs.get j).sequence) := by
  have hmap : (processDispatches sid ⟨⟨sid0, none⟩, []⟩ fs).sink.map InboundEvent.sequence
      = fs.map DispatchFrame.sequence := by
    rw [processDispatches_sink sid fs ⟨⟨sid0, none⟩, []⟩]
    simp [List.map_map, Function.comp]
  refine ⟨fun i => processDispatches_take_last sid _ fs i, hmap, ?_,
    fun i j hij => frames_mono fs hmono i j hij⟩
  rw [hmap]
  exact hmono

/-- Witness for C7 at two concrete frames with sequences 5 and 7: the sink
receives them in order and strictly increasing. -/
theorem dispatch_ordering_witness :
    (processDispatches 0 ⟨⟨none, none⟩, []⟩ exampleFrames).sink.map InboundEvent.sequence
        = exampleFrames.map DispatchFrame.sequence
    ∧ List.Chain' (· < ·)
        ((processDispatches 0 ⟨⟨none, none⟩, []⟩ exampleFrames).sink.map InboundEvent.sequence) := by
  have h := dispatch_ordering 0 none exampleFrames
    (by simp [exampleFrames, List.chain'_cons])
  exact ⟨h.2.1, h.2.2.1⟩

theorem Op.ofCode_code (o : Op) : Op.ofCode o.code = some o := by
  cases o <;> rfl

theorem char_codes_roundtrip (s : String) :
    (s.data.map Char.toNat).map Char.ofNat = s.data := by
  rw [List.map_map]
  have h : Char.ofNat ∘ Char.toNat = id := by
    funext c
    exact Char.ofNat_toNat c
  rw [h, List.map_id]

theorem parseStringBody_encode (s : String) (rest : List Nat) :
    parseStringBody (encodeString s ++ rest) = some (s, rest) := by
  have hlen : s.length = (s.data.map Char.toNat).length := by
    rw [List.length_map]
    rfl
  have hle : s.length ≤ (s.data.map Char.toNat ++ rest).length := by
    rw [List.length_append, ← hlen]
    exact Nat.le_add_right _ _
  simp only [encodeString, List.cons_append, parseStringBody]
  rw [if_pos hle, hlen, List.take_left, List.drop_left, char_codes_roundtrip]

theorem parseBytes_encode (l rest : List Nat) :
    parseBytes (l.length :: (l ++ rest)) = some (l, rest) := by
  have hle : l.length ≤ (l ++ rest).length := by
    rw [List.length_append]
    exact Nat.le_add_right _ _
  simp only [parseBytes]
  rw [if_pos hle, List.take_left, List.drop_left]

theorem parseBytes_exact (l : List Nat) :
    parseBytes (l.length :: l) = some (l, []) := by
  have h := parseBytes_encode l []
  rwa [List.append_nil] at h

theorem decodeBinary_encodeBinary (f : Frame) :
    decodeBinary (encodeBinary f) = some f := by
  obtain ⟨op, seq, nm, dat⟩ := f
  cases seq <;> cases nm <;>
    simp [encodeBinary, decodeBinary, Op.ofCode_code, parseOptNat, parseOptString,
      parseStringBody_encode, parseBytes_exact]

theorem decodeText_encodeText (f : Frame) :
    decodeText (encodeText f) = some f := by
  obtain ⟨op, seq, nm, dat⟩ := f
  cases seq <;> cases nm <;>
    simp [encodeText, decodeText, Op.ofCode_code, parseSeqTag, parseNameTag,
      parseDataTag, parseStringBody_encode, parseBytes_exact]

/-- Claim C8: the frame codec round-trips: for every frame — hence for every
supported op type — re-encoding the decoded bytes reproduces the original
bytes identically, in both the dense binary format and the self-describing
text format. -/
theorem frame_codec_round_trip (f : Frame) :
    Option.map encodeBinary (decodeBinary (encodeBinary f)) = some (encodeBinary f)
    ∧ Option.map encodeText (decodeText (encodeText f)) = some (encodeText f) := by
  rw [decodeBinary_encodeBinary f, decodeText_encodeText f]
  exact ⟨rfl, rfl⟩

end Hikari
